import Mathlib

/-!
Verification of the Tuva parser and setup pipeline (tuva-parser.js and
setup-tuva.js) against its specification. The JavaScript is shallowly
embedded: JS objects become structures, optional or absent fields become
Option, the JS truthiness idiom a || b on strings (where both undefined
and the empty string are falsy) becomes explicit helpers, fallible
external calls become Except values, and the side effects of the setup
functions (bulk upserts, rate-limit sleeps, index creation) become
explicit event traces.
-/

/-! ## JavaScript value helpers -/

/-- JS idiom a || b where a is a string: the empty string is falsy. -/
def jsOrSS (a b : String) : String :=
  if a = "" then b else a

/-- JS idiom a || b where a is an optional string field: undefined and
the empty string are both falsy. -/
def jsOrStr (a : Option String) (b : String) : String :=
  match a with
  | some s => if s = "" then b else s
  | none => b

/-- Model of JavaScript Array.prototype.join applied with separator
newline, as used for the per-column lines of the schema text. -/
def joinLines : List String → String
  | [] => ""
  | [x] => x
  | x :: y :: t => x ++ "\n" ++ joinLines (y :: t)

/-! ## Data model

TableSchema is the canonical catalog record produced by the normalizer
(tuva-parser.js). The enrichment step of parseTuvaSchema adds the
optional full_description field to the same record; JS objects are
structural, so a single structure with an optional extra field models
both stages. -/

structure Column where
  name : String
  type : String
  description : String
deriving Repr, DecidableEq

structure TableSchema where
  table_name : String
  description : String
  columns : List Column
  full_description : Option String
deriving Repr, DecidableEq

/-! ## Source document model

parseYamlFile dispatches on the loaded YAML value: Shape A is an object
with version === 2 and a models list (dbt v2); anything else that is an
object is treated as Shape B, a keyed map whose object values may carry a
columns list. The value space below covers both shapes; top-level keys
whose values are non-objects (including the version and models keys
themselves when iterated by the Shape B branch) are MapVal.nonObj, which
the code skips. -/

/-- A Shape A column entry: name plus the two synonymous declared-type
keys data_type and dataType read by the dbt-v2 branch, and an optional
description. -/
structure ColA where
  name : String
  data_type : Option String
  dataType : Option String
  description : Option String
deriving Repr, DecidableEq

/-- The meta object reached by the optional chain model.docs?.meta?. -/
structure DocsMeta where
  description : Option String
deriving Repr, DecidableEq

/-- The docs object reached by the optional chain model.docs?. -/
structure DocsField where
  meta : Option DocsMeta
deriving Repr, DecidableEq

/-- A Shape A model entry: the code requires a truthy name and a truthy
columns field before emitting a record. -/
structure ModelEntry where
  name : String
  description : Option String
  docs : Option DocsField
  columns : Option (List ColA)
deriving Repr, DecidableEq

/-- The optional chain model.docs?.meta?.description. -/
def docsMetaDescription (m : ModelEntry) : Option String :=
  (m.docs.bind DocsField.meta).bind DocsMeta.description

/-- A Shape B column entry: either a bare name string or a column object
with the type keys type and data_type. -/
inductive ColB where
  | str (s : String)
  | obj (name : String) (type : Option String) (data_type : Option String)
      (description : Option String)
deriving Repr, DecidableEq

/-- A Shape B top-level value that is an object: optional description and
optional columns list. -/
structure MapEntry where
  description : Option String
  columns : Option (List ColB)
deriving Repr, DecidableEq

/-- A top-level value of a Shape B document: the code keeps only object
values whose columns field is truthy. -/
inductive MapVal where
  | nonObj
  | objV (e : MapEntry)
deriving Repr, DecidableEq

/-- A loaded YAML document that is an object: the version marker, the
models list and the remaining top-level keyed values. -/
structure ObjDoc where
  version : Option Int
  models : Option (List ModelEntry)
  entries : List (String × MapVal)
deriving Repr, DecidableEq

/-- A loaded YAML document: an object, or any non-object value (null,
scalar), which yields no records. -/
inductive YamlDoc where
  | obj (d : ObjDoc)
  | nonObj
deriving Repr, DecidableEq

/-! ## Schema Normalizer (parseYamlFile, tuva-parser.js lines 263 to 313) -/

/-- Shape A column normalization: type: col.data_type || col.dataType ||
TEXT, description: col.description || empty. -/
def parseColA (col : ColA) : Column :=
  { name := col.name
    type := jsOrStr col.data_type (jsOrStr col.dataType "TEXT")
    description := jsOrStr col.description "" }

/-- Shape B column normalization: a bare string gets type TEXT and empty
description, an object gets type: col.type || col.data_type || TEXT. -/
def parseColB : ColB → Column
  | ColB.str s => { name := s, type := "TEXT", description := "" }
  | ColB.obj name type data_type description =>
      { name := name
        type := jsOrStr type (jsOrStr data_type "TEXT")
        description := jsOrStr description "" }

/-- The record pushed for a qualifying Shape A model entry. -/
def modelToSchema (model : ModelEntry) : TableSchema :=
  { table_name := model.name
    description := jsOrStr model.description (jsOrStr (docsMetaDescription model) "")
    columns := (model.columns.getD []).map parseColA
    full_description := none }

/-- The record pushed for a qualifying Shape B keyed entry. -/
def entryToSchema (key : String) (e : MapEntry) : TableSchema :=
  { table_name := key
    description := jsOrStr e.description ""
    columns := (e.columns.getD []).map parseColB
    full_description := none }

/-- The pure core of parseYamlFile on a successfully loaded document:
dbt-v2 dispatch on version === 2, else the generic keyed-map scan. -/
def parseDoc : YamlDoc → List TableSchema
  | YamlDoc.nonObj => []
  | YamlDoc.obj d =>
      if d.version = some 2 then
        (d.models.getD []).filterMap (fun model =>
          if model.name ≠ "" ∧ model.columns.isSome then
            some (modelToSchema model)
          else none)
      else
        d.entries.filterMap (fun kv =>
          match kv.2 with
          | MapVal.nonObj => none
          | MapVal.objV e =>
              if e.columns.isSome then some (entryToSchema kv.1 e) else none)

/-- parseYamlFile: the file read and YAML load may throw; the catch
branch logs a warning and returns the empty record list. -/
def parseYamlFile : Except String YamlDoc → List TableSchema
  | Except.error _ => []
  | Except.ok d => parseDoc d

/-! ## Documentation enrichment and parseTuvaSchema
(tuva-parser.js lines 318 to 414) -/

/-- A dbt_doc_blocks entry as merged by extractDocumentation. -/
structure DocBlock where
  description : Option String
  content : Option String
deriving Repr, DecidableEq

/-- The enrichment of parseTuvaSchema step 5: description gets the
precedence schema.description || doc.description || doc.content ||
empty, and full_description is doc.content || schema.description. -/
def enrich (documentation : String → Option DocBlock) (schema : TableSchema) :
    TableSchema :=
  let doc := (documentation schema.table_name).getD { description := none, content := none }
  { schema with
    description := jsOrSS schema.description
      (jsOrStr doc.description (jsOrStr doc.content ""))
    full_description := some (jsOrStr doc.content schema.description) }

/-- The state parseTuvaSchema runs against: whether the models directory
exists in the cloned repository, the load result of each YAML file found
under it (in traversal order), and the documentation map built by
extractDocumentation. -/
structure RepoState where
  modelsDirExists : Bool
  files : List (Except String YamlDoc)
  documentation : String → Option DocBlock

/-- parseTuvaSchema: when the models directory is missing the function
logs and returns with no value (modelled as none); otherwise each file is
parsed, the record lists are concatenated in file order, and every record
is enriched with the documentation map. -/
def parseTuvaSchema (repo : RepoState) : Option (List TableSchema) :=
  if repo.modelsDirExists then
    let allSchemas := (repo.files.map parseYamlFile).flatten
    let enrichedSchemas := allSchemas.map (enrich repo.documentation)
    some enrichedSchemas
  else
    none

/-- JS member access schemas.length as performed by setupTuva on the
awaited result of parseTuvaSchema: reading length of undefined throws a
TypeError. -/
def jsLength (schemas : Option (List TableSchema)) : Except String Nat :=
  match schemas with
  | some l => Except.ok l.length
  | none => Except.error "TypeError: Cannot read properties of undefined (reading length)"

/-- Step 1 of setupTuva (setup-tuva.js lines 153 to 157): parse the
schema and read schemas.length for the progress log. -/
def setupTuvaCount (repo : RepoState) : Except String Nat :=
  jsLength (parseTuvaSchema repo)

/-! ## Schema Text Encoder (createSchemaText, setup-tuva.js lines 96 to 102) -/

/-- createSchemaText: the table name, the description on the next line, a
Columns: header, then the per-column lines joined with newlines. -/
def createSchemaText (schema : TableSchema) : String :=
  let columnsText := joinLines (schema.columns.map (fun col =>
    "  - " ++ col.name ++ " (" ++ col.type ++ "): " ++
      jsOrStr (some col.description) "No description"))
  schema.table_name ++ "\n" ++ jsOrSS schema.description "" ++ "\nColumns:\n" ++ columnsText

/-- The line the specification prescribes for one column. Spec-side
companion of createSchemaText, for the refinement theorem. -/
def columnLine (col : Column) : String :=
  "  - " ++ col.name ++ " (" ++ col.type ++ "): " ++
    (if col.description = "" then "No description" else col.description)

/-! ## JSON serialization of metadata

uploadToPinecone serializes the column list and the whole schema with
JSON.stringify for the metadata fields; the claims never inspect these
strings, but the record shape keeps them. -/

/-- JSON string escaping for the common escapes. -/
def jsonEscape (s : String) : String :=
  s.data.foldl (fun acc c =>
    acc ++ (if c = '"' then "\\\"" else if c = '\\' then "\\\\"
      else if c = '\n' then "\\n" else if c = '\t' then "\\t"
      else if c = '\r' then "\\r" else String.singleton c)) ""

def stringifyColumn (c : Column) : String :=
  "\x7b\"name\":\"" ++ jsonEscape c.name ++ "\",\"type\":\"" ++ jsonEscape c.type ++
    "\",\"description\":\"" ++ jsonEscape c.description ++ "\"\x7d"

def stringifyColumns (cols : List Column) : String :=
  "[" ++ String.intercalate "," (cols.map stringifyColumn) ++ "]"

def stringifySchema (s : TableSchema) : String :=
  "\x7b\"table_name\":\"" ++ jsonEscape s.table_name ++ "\",\"description\":\"" ++
    jsonEscape s.description ++ "\",\"columns\":" ++ stringifyColumns s.columns ++
    (match s.full_description with
     | none => ""
     | some fd => ",\"full_description\":\"" ++ jsonEscape fd ++ "\"") ++ "\x7d"

/-! ## Index Builder (setup-tuva.js lines 29 to 144)

The embedding gateway is the external collaborator: it is passed in as a
function from text to an Except (the request either yields a vector or
rejects). The vector payload type V is abstract since no claim inspects
vector numerics. The observable effects of uploadToPinecone, the bulk
upserts and the rate-limit sleeps, are collected as an event trace. -/

/-- The metadata object assembled for one record. -/
structure VectorMetadata where
  table_name : String
  description : String
  columns : String
  schema : String
deriving Repr, DecidableEq

/-- The record upserted for one table: id is the table name. -/
structure VectorRecord (V : Type) where
  id : String
  values : V
  metadata : VectorMetadata
deriving Repr, DecidableEq

/-- An observable effect of uploadToPinecone: a bulk upsert of one batch,
or a rate-limit sleep in milliseconds. -/
inductive Event (V : Type) where
  | upsert (vectors : List (VectorRecord V))
  | sleep (ms : Nat)
deriving Repr, DecidableEq

/-- generateEmbedding (setup-tuva.js lines 29 to 48): it forwards the
Bedrock call and in the catch branch logs and rethrows, so the Except
passes through unchanged. -/
def generateEmbedding {V : Type} (embed : String → Except String V)
    (text : String) : Except String V :=
  match embed text with
  | Except.ok body => Except.ok body
  | Except.error e => Except.error e

/-- The record built for one schema inside the batch map: encode the
schema text, request its embedding, assemble the upsert record. -/
def makeVector {V : Type} (embed : String → Except String V)
    (schema : TableSchema) : Except String (VectorRecord V) :=
  let schemaText := createSchemaText schema
  match generateEmbedding embed schemaText with
  | Except.error e => Except.error e
  | Except.ok embedding =>
      Except.ok
        { id := schema.table_name
          values := embedding
          metadata :=
            { table_name := schema.table_name
              description := jsOrSS schema.description ""
              columns := stringifyColumns schema.columns
              schema := stringifySchema schema } }

/-- Promise.all over the batch map: all records, or the first rejection.
The requests fire concurrently in JS; an upsert happens only when every
request of the batch resolved, which is what this models. -/
def processBatch {V : Type} (embed : String → Except String V) :
    List TableSchema → Except String (List (VectorRecord V))
  | [] => Except.ok []
  | s :: rest =>
      match makeVector embed s with
      | Except.error e => Except.error e
      | Except.ok v =>
          match processBatch embed rest with
          | Except.error e => Except.error e
          | Except.ok vs => Except.ok (v :: vs)

def batchSize : Nat := 100

/-- One step per loop iteration: the slice at the current index, then
the slices of the rest. Each iteration consumes at least one element
(batchSize is positive), so the list length bounds the iteration count
and serves as structural fuel. -/
def batchesGo {α : Type} : Nat → List α → List (List α)
  | _, [] => []
  | 0, _ :: _ => []
  | Nat.succ fuel, a :: t =>
      (a :: t).take batchSize :: batchesGo fuel ((a :: t).drop batchSize)

/-- The consecutive slices schemas.slice(i, i + batchSize) visited by the
upload loop as i steps by batchSize. -/
def batchesOf {α : Type} (l : List α) : List (List α) :=
  batchesGo l.length l

/-- Outcome of an uploadToPinecone run: the event trace, the thrown error
or the JS return value (the function body has no return statement, so
normal completion returns undefined, modelled as ok none), and the final
value of the uploaded counter. -/
structure UploadOut (V : Type) where
  events : List (Event V)
  outcome : Except String (Option Nat)
  uploaded : Nat
deriving Repr

/-- The body of the upload loop over the remaining batches: embed and
upsert each batch, bump the uploaded counter by the batch length, and
sleep 1000 ms exactly when i + batchSize < schemas.length, which is when
further batches remain. A rejected batch propagates out of the loop with
no upsert for it. -/
def uploadOver {V : Type} (embed : String → Except String V) :
    List (List TableSchema) → Nat → UploadOut V
  | [], uploaded => { events := [], outcome := Except.ok none, uploaded := uploaded }
  | batch :: rest, uploaded =>
      match processBatch embed batch with
      | Except.error e => { events := [], outcome := Except.error e, uploaded := uploaded }
      | Except.ok vectors =>
          let out := uploadOver embed rest (uploaded + batch.length)
          { events := Event.upsert vectors ::
              (if rest.isEmpty then out.events else Event.sleep 1000 :: out.events)
            outcome := out.outcome
            uploaded := out.uploaded }

/-- uploadToPinecone (setup-tuva.js lines 107 to 144): the for loop over
i in steps of batchSize visits exactly the slices of batchesOf. -/
def uploadToPinecone {V : Type} (embed : String → Except String V)
    (schemas : List TableSchema) : UploadOut V :=
  uploadOver embed (batchesOf schemas) 0

/-- The ids of all records written, per upsert event, flattened in trace
order. -/
def upsertedIds {V : Type} (events : List (Event V)) : List String :=
  (events.filterMap (fun ev =>
    match ev with
    | Event.upsert vs => some (vs.map VectorRecord.id)
    | Event.sleep _ => none)).flatten

/-! ## Index provisioning (initializeIndex, setup-tuva.js lines 53 to 91) -/

def PINECONE_INDEX_NAME : String := "tuva-schemas"

def EMBEDDING_DIMENSIONS : Nat := 1536

/-- The arguments of pinecone.createIndex. -/
structure CreateIndexArgs where
  name : String
  dimension : Nat
  metric : String
  cloud : String
  region : String
deriving Repr, DecidableEq

/-- An observable step of initializeIndex. -/
inductive SetupEvent where
  | listIndexes
  | createIndex (args : CreateIndexArgs)
  | sleep (ms : Nat)
  | getIndex (name : String)
deriving Repr, DecidableEq

/-- Result of initializeIndex: the step trace, the index names existing
in the service afterwards, and the name of the returned index handle. -/
structure InitResult where
  events : List SetupEvent
  indexes : List String
  handle : String
deriving Repr, DecidableEq

/-- initializeIndex: list the indexes; if the named index exists, return
its handle at once; otherwise create it with dimension 1536 and the
cosine metric, pause a fixed 10000 ms, and return the handle. -/
def initializeIndex (existing : List String) : InitResult :=
  if existing.contains PINECONE_INDEX_NAME then
    { events := [SetupEvent.listIndexes, SetupEvent.getIndex PINECONE_INDEX_NAME]
      indexes := existing
      handle := PINECONE_INDEX_NAME }
  else
    { events := [SetupEvent.listIndexes,
        SetupEvent.createIndex
          { name := PINECONE_INDEX_NAME, dimension := EMBEDDING_DIMENSIONS,
            metric := "cosine", cloud := "aws", region := "us-east-1" },
        SetupEvent.sleep 10000,
        SetupEvent.getIndex PINECONE_INDEX_NAME]
      indexes := existing ++ [PINECONE_INDEX_NAME]
      handle := PINECONE_INDEX_NAME }

/-- Total milliseconds initializeIndex spends sleeping. -/
def waitedMs (events : List SetupEvent) : Nat :=
  (events.map (fun e => match e with | SetupEvent.sleep ms => ms | _ => 0)).sum

/-- Modelled environment for index provisioning: a newly created
serverless index becomes queryable only after a service-controlled
provisioning time in milliseconds. The claim that initializeIndex waits
for the index to become queryable says the wait covers that time,
whatever the service takes. -/
def indexQueryableAtReturn (provisionMs : Nat) (r : InitResult) : Prop :=
  provisionMs ≤ waitedMs r.events

/-- The record uploadToPinecone builds for a schema when the embedding
request succeeds, with embVal naming the vector the gateway returns for
each text. -/
def vecOf {V : Type} (embVal : String → V) (s : TableSchema) : VectorRecord V :=
  { id := s.table_name
    values := embVal (createSchemaText s)
    metadata :=
      { table_name := s.table_name
        description := jsOrSS s.description ""
        columns := stringifyColumns s.columns
        schema := stringifySchema s } }

/-! ## Concrete inputs for witnesses and counterexamples -/

/-- A one-column table schema used as concrete input. -/
def exPatient : TableSchema :=
  { table_name := "core__patient"
    description := "Patient demographics"
    columns := [{ name := "id", type := "TEXT", description := "" },
                { name := "state", type := "TEXT", description := "State code" }]
    full_description := none }

/-- A second table schema used as concrete input. -/
def exCondition : TableSchema :=
  { table_name := "core__condition"
    description := ""
    columns := [{ name := "code", type := "TEXT", description := "" }]
    full_description := none }

/-- A source file whose document is a Shape B map defining table t. -/
def exFileT1 : Except String YamlDoc :=
  Except.ok (YamlDoc.obj
    { version := none
      models := none
      entries := [("t", MapVal.objV
        { description := none, columns := some [ColB.str "c1"] })] })

/-- A later source file defining the same table name t again. -/
def exFileT2 : Except String YamlDoc :=
  Except.ok (YamlDoc.obj
    { version := none
      models := none
      entries := [("t", MapVal.objV
        { description := some "later definition", columns := some [ColB.str "c2"] })] })

/-- A repository state whose two files both define table t. -/
def exDupRepo : RepoState :=
  { modelsDirExists := true
    files := [exFileT1, exFileT2]
    documentation := fun _ => none }

/-- A Shape A document with one qualifying model entry. -/
def exDocA : ObjDoc :=
  { version := some 2
    models := some [{ name := "core__patient"
                      description := some "Patient demographics"
                      docs := none
                      columns := some [{ name := "id", data_type := none,
                                         dataType := none, description := none }] }]
    entries := [] }

/-- A Shape B document with a bare-string column. -/
def exDocB : ObjDoc :=
  { version := none
    models := none
    entries := [("core__lab", MapVal.objV
      { description := none
        columns := some [ColB.str "loinc",
          ColB.obj "value" none (some "NUMERIC") (some "result value")] })] }

/-! ## Helper lemmas -/

theorem jsOrSS_empty (d : String) : jsOrSS d "" = d := by
  by_cases hd : d = "" <;> simp [jsOrSS, hd]

theorem generateEmbedding_eq {V : Type} (embed : String → Except String V)
    (t : String) : generateEmbedding embed t = embed t := by
  unfold generateEmbedding
  cases embed t <;> rfl

theorem enrich_table_name (documentation : String → Option DocBlock)
    (s : TableSchema) : (enrich documentation s).table_name = s.table_name := rfl

theorem filterMap_ite {α β : Type} (p : α → Prop) [DecidablePred p] (f : α → β)
    (l : List α) :
    (l.filterMap fun a => if p a then some (f a) else none)
      = (l.filter fun a => decide (p a)).map f := by
  induction l with
  | nil => rfl
  | cons a t ih => by_cases h : p a <;> simp [h, ih]

theorem batchesGo_eq_of_le {α : Type} :
    ∀ (fuel fuel2 : Nat) (l : List α), l.length ≤ fuel → l.length ≤ fuel2 →
      batchesGo fuel l = batchesGo fuel2 l
  | _, _, [] => by intro _ _; simp [batchesGo]
  | 0, _, a :: t => by intro h _; simp at h
  | _, 0, a :: t => by intro _ h; simp at h
  | Nat.succ f1, Nat.succ f2, a :: t => by
      intro h1 h2
      simp only [batchesGo]
      rw [batchesGo_eq_of_le f1 f2 ((a :: t).drop batchSize)
        (by simp [batchSize] at *; omega) (by simp [batchSize] at *; omega)]

theorem batchesOf_cons {α : Type} (a : α) (t : List α) :
    batchesOf (a :: t) = (a :: t).take batchSize :: batchesOf ((a :: t).drop batchSize) := by
  simp only [batchesOf, List.length_cons, batchesGo]
  rw [batchesGo_eq_of_le t.length ((a :: t).drop batchSize).length
    ((a :: t).drop batchSize)
    (by simp only [List.length_drop, List.length_cons, batchSize]; omega) (le_refl _)]

theorem batchesOf_flatten {α : Type} : (l : List α) → (batchesOf l).flatten = l
  | [] => by simp [batchesOf, batchesGo]
  | a :: t => by
      rw [batchesOf_cons, List.flatten_cons,
        batchesOf_flatten ((a :: t).drop batchSize)]
      exact List.take_append_drop _ _
termination_by l => l.length
decreasing_by simp [batchSize]; omega

theorem batchesOf_length_le {α : Type} :
    (l : List α) → ∀ b ∈ batchesOf l, b.length ≤ batchSize
  | [] => by simp [batchesOf, batchesGo]
  | a :: t => by
      rw [batchesOf_cons]
      intro b hb
      rcases List.mem_cons.mp hb with h | h
      · subst h; exact List.length_take_le _ _
      · exact batchesOf_length_le ((a :: t).drop batchSize) b h
termination_by l => l.length
decreasing_by simp [batchSize]; omega

theorem makeVector_ok {V : Type} (embed : String → Except String V)
    (embVal : String → V) (hemb : ∀ t, embed t = Except.ok (embVal t))
    (s : TableSchema) : makeVector embed s = Except.ok (vecOf embVal s) := by
  simp only [makeVector, generateEmbedding_eq, hemb, vecOf]

theorem processBatch_ok {V : Type} (embed : String → Except String V)
    (embVal : String → V) (hemb : ∀ t, embed t = Except.ok (embVal t))
    (b : List TableSchema) :
    processBatch embed b = Except.ok (b.map (vecOf embVal)) := by
  induction b with
  | nil => rfl
  | cons s t ih => simp [processBatch, makeVector_ok embed embVal hemb s, ih]

theorem processBatch_error_iff {V : Type} (embed : String → Except String V)
    (b : List TableSchema) :
    (∃ e, processBatch embed b = Except.error e)
      ↔ ∃ s ∈ b, ∃ e, embed (createSchemaText s) = Except.error e := by
  induction b with
  | nil => simp [processBatch]
  | cons s t ih =>
      simp only [processBatch, makeVector, generateEmbedding_eq]
      cases hs : embed (createSchemaText s) with
      | error e =>
          constructor
          · intro _; exact ⟨s, List.mem_cons_self s t, e, hs⟩
          · intro _; exact ⟨e, rfl⟩
      | ok v =>
          cases ht : processBatch embed t with
          | error e2 =>
              constructor
              · intro _
                obtain ⟨x, hx, e3, hfx⟩ := ih.mp ⟨e2, ht⟩
                exact ⟨x, List.mem_cons_of_mem s hx, e3, hfx⟩
              · intro _; exact ⟨e2, rfl⟩
          | ok vs =>
              constructor
              · rintro ⟨e, he⟩; exact absurd he (by simp)
              · rintro ⟨x, hx, e, hfx⟩
                rcases List.mem_cons.mp hx with rfl | hxt
                · rw [hs] at hfx; exact absurd hfx (by simp)
                · obtain ⟨e2, ht2⟩ := ih.mpr ⟨x, hxt, e, hfx⟩
                  rw [ht] at ht2; exact absurd ht2 (by simp)

theorem first_false_split {α : Type} (p : α → Bool) :
    ∀ l : List α, (∃ x ∈ l, p x = false) →
      ∃ pre x post, l = pre ++ x :: post ∧ (∀ y ∈ pre, p y = true) ∧ p x = false := by
  intro l h
  induction l with
  | nil => simp at h
  | cons a t ih =>
      cases ha : p a with
      | false => exact ⟨[], a, t, rfl, by simp, ha⟩
      | true =>
          have ht : ∃ x ∈ t, p x = false := by
            obtain ⟨x, hx, hpx⟩ := h
            rcases List.mem_cons.mp hx with rfl | hxt
            · rw [ha] at hpx; exact absurd hpx (by simp)
            · exact ⟨x, hxt, hpx⟩
          obtain ⟨pre, x, post, heq, hpre, hpx⟩ := ih ht
          refine ⟨a :: pre, x, post, by simp [heq], ?_, hpx⟩
          intro y hy
          rcases List.mem_cons.mp hy with rfl | hyp
          · exact ha
          · exact hpre y hyp

theorem uploadOver_ok {V : Type} (embed : String → Except String V)
    (embVal : String → V) (hemb : ∀ t, embed t = Except.ok (embVal t)) :
    ∀ (batches : List (List TableSchema)) (u : Nat),
      uploadOver embed batches u =
        { events := List.intersperse (Event.sleep 1000)
            (batches.map (fun b => Event.upsert (b.map (vecOf embVal))))
          outcome := Except.ok none
          uploaded := u + (batches.map List.length).sum } := by
  intro batches
  induction batches with
  | nil => intro u; simp [uploadOver]
  | cons b rest ih =>
      intro u
      simp only [uploadOver, processBatch_ok embed embVal hemb b, ih (u + b.length)]
      cases rest with
      | nil => simp [List.intersperse]
      | cons b2 t2 =>
          simp [List.intersperse_cons_cons, List.isEmpty, Nat.add_assoc]

theorem uploadOver_fail {V : Type} (embed : String → Except String V) :
    ∀ (pre : List (List TableSchema)) (fb : List TableSchema)
      (post : List (List TableSchema)) (u : Nat) (e : String),
      (∀ b ∈ pre, ∃ vs, processBatch embed b = Except.ok vs) →
      processBatch embed fb = Except.error e →
      (uploadOver embed (pre ++ fb :: post) u).outcome = Except.error e
        ∧ (uploadOver embed (pre ++ fb :: post) u).events
            = (pre.map (fun b =>
                [Event.upsert ((processBatch embed b).toOption.getD []),
                 Event.sleep 1000])).flatten := by
  intro pre
  induction pre with
  | nil =>
      intro fb post u e _ hfb
      simp [uploadOver, hfb]
  | cons b pre2 ih =>
      intro fb post u e hpre hfb
      obtain ⟨vs, hvs⟩ := hpre b (List.mem_cons_self b pre2)
      have hrest := ih fb post (u + b.length) e
        (fun b2 hb2 => hpre b2 (List.mem_cons_of_mem b hb2)) hfb
      have hne : (pre2 ++ fb :: post).isEmpty = false := by
        cases pre2 <;> simp [List.isEmpty]
      constructor
      · simp only [List.cons_append, uploadOver, hvs]
        exact hrest.1
      · simp only [List.cons_append, uploadOver, hvs, hne]
        simp only [List.map_cons, List.flatten_cons, hvs]
        simp [hrest.2, Except.toOption]

theorem upsertedIds_intersperse {V : Type} (f : List TableSchema → List (VectorRecord V)) :
    ∀ bs : List (List TableSchema),
      upsertedIds (List.intersperse (Event.sleep 1000)
          (bs.map (fun b => Event.upsert (f b))))
        = (bs.map (fun b => (f b).map VectorRecord.id)).flatten := by
  intro bs
  induction bs with
  | nil => rfl
  | cons b t ih =>
      cases t with
      | nil => simp [upsertedIds, List.intersperse]
      | cons b2 t2 =>
          simp only [List.map_cons, List.intersperse_cons_cons]
          simp only [List.map_cons] at ih
          simp only [upsertedIds, List.filterMap_cons] at ih ⊢
          simp [ih]

theorem vecOf_id {V : Type} (embVal : String → V) (s : TableSchema) :
    (vecOf embVal s).id = s.table_name := rfl

/-! ## Claims -/

/-- C1, counterexample: two source files each define table t, and the
catalog parseTuvaSchema produces keeps both records, so it does not hold
at most one TableSchema per distinct table name. -/
theorem c1_counterexample :
    ¬ (((parseTuvaSchema exDupRepo).getD []).countP
        (fun s => s.table_name == "t") ≤ 1) := by
  decide

/-- C1, amended: parseTuvaSchema performs no deduplication. The catalog
is the concatenation, in file order, of the records parsed from each
source file, so the number of catalog entries carrying a table name is
the total number of occurrences of that name across all files; duplicate
names yield duplicate entries rather than a single last-write-wins
entry. -/
theorem c1_amended (repo : RepoState) (h : repo.modelsDirExists = true)
    (n : String) :
    ((parseTuvaSchema repo).getD []).countP (fun s => s.table_name == n)
      = (repo.files.map (fun f =>
          (parseYamlFile f).countP (fun s => s.table_name == n))).sum := by
  simp only [parseTuvaSchema, h, if_true, Option.getD_some]
  rw [List.countP_map, List.countP_flatten, List.map_map]
  have hp : ((fun s : TableSchema => s.table_name == n) ∘ enrich repo.documentation)
      = (fun s : TableSchema => s.table_name == n) := by
    funext s
    simp [Function.comp, enrich_table_name]
  rw [hp]
  rfl

/-- C1, witness for the amended claim at the duplicated-table repo. -/
theorem c1_amended_witness :
    ((parseTuvaSchema exDupRepo).getD []).countP (fun s => s.table_name == "t")
      = (exDupRepo.files.map (fun f =>
          (parseYamlFile f).countP (fun s => s.table_name == "t"))).sum :=
  c1_amended exDupRepo rfl "t"

/-- C2: createSchemaText renders, deterministically (it is a pure
function of the TableSchema alone, so equal inputs give byte-identical
strings definitionally), the table name, the description on the next
line, a Columns: header line, and one line per column in order of the
form two spaces, a dash, name, parenthesized type, colon, then the
description or No description when it is empty or absent. -/
theorem c2_schema_text (s : TableSchema) (h : s.columns ≠ []) :
    createSchemaText s
      = joinLines (s.table_name :: s.description :: "Columns:" ::
          s.columns.map columnLine) := by
  obtain ⟨c, cs, hc⟩ : ∃ c cs, s.columns = c :: cs := by
    cases hcl : s.columns with
    | nil => exact absurd hcl h
    | cons c cs => exact ⟨c, cs, rfl⟩
  have hfun : (fun col : Column => "  - " ++ col.name ++ " (" ++ col.type ++ "): " ++
      jsOrStr (some col.description) "No description") = columnLine := by
    funext col
    simp [jsOrStr, columnLine]
  simp only [createSchemaText, hfun, jsOrSS_empty, hc, List.map_cons]
  have hsplit : ("\nColumns:\n" : String) = "\n" ++ "Columns:" ++ "\n" := rfl
  simp only [joinLines, hsplit, String.append_assoc]

/-- C2, witness at a concrete schema. -/
theorem c2_schema_text_witness :
    createSchemaText exPatient
      = joinLines (exPatient.table_name :: exPatient.description :: "Columns:" ::
          exPatient.columns.map columnLine) :=
  c2_schema_text exPatient (by simp [exPatient])

/-- C3: on a Shape A document (version marker 2) the parse is exactly
one TableSchema per model entry with a truthy name and a present column
list, in model order, named by the entry and with the columns mapped in
their original order; a column type comes from data_type, else from the
synonymous dataType, and defaults to TEXT when both are absent. -/
theorem c3_shape_a (d : ObjDoc) (h2 : d.version = some 2) :
    parseDoc (YamlDoc.obj d)
        = ((d.models.getD []).filter
            (fun m => decide (m.name ≠ "" ∧ m.columns.isSome))).map modelToSchema
      ∧ (∀ m : ModelEntry, (modelToSchema m).table_name = m.name)
      ∧ (∀ m : ModelEntry, ∀ cols, m.columns = some cols →
          (modelToSchema m).columns = cols.map parseColA)
      ∧ (∀ c : ColA, (parseColA c).name = c.name)
      ∧ (∀ c : ColA, c.data_type = none → c.dataType = none →
          (parseColA c).type = "TEXT")
      ∧ (∀ c : ColA, ∀ t, c.data_type = some t → t ≠ "" → (parseColA c).type = t)
      ∧ (∀ c : ColA, ∀ t, (c.data_type = none ∨ c.data_type = some "") →
          c.dataType = some t → t ≠ "" → (parseColA c).type = t) := by
  refine ⟨?_, fun m => rfl, ?_, fun c => rfl, ?_, ?_, ?_⟩
  · simp only [parseDoc, h2, if_true]
    exact filterMap_ite _ modelToSchema _
  · intro m cols hcols
    simp [modelToSchema, hcols]
  · intro c h1 h2'
    simp [parseColA, jsOrStr, h1, h2']
  · intro c t h1 ht
    simp [parseColA, jsOrStr, h1, ht]
  · intro c t h1 h2' ht
    rcases h1 with h1 | h1 <;> simp [parseColA, jsOrStr, h1, h2', ht]

/-- C3, witness at a concrete Shape A document. -/
theorem c3_shape_a_witness :
    (parseDoc (YamlDoc.obj exDocA)
        = ((exDocA.models.getD []).filter
            (fun m => decide (m.name ≠ "" ∧ m.columns.isSome))).map modelToSchema)
      ∧ (∀ m : ModelEntry, (modelToSchema m).table_name = m.name)
      ∧ (∀ m : ModelEntry, ∀ cols, m.columns = some cols →
          (modelToSchema m).columns = cols.map parseColA)
      ∧ (∀ c : ColA, (parseColA c).name = c.name)
      ∧ (∀ c : ColA, c.data_type = none → c.dataType = none →
          (parseColA c).type = "TEXT")
      ∧ (∀ c : ColA, ∀ t, c.data_type = some t → t ≠ "" → (parseColA c).type = t)
      ∧ (∀ c : ColA, ∀ t, (c.data_type = none ∨ c.data_type = some "") →
          c.dataType = some t → t ≠ "" → (parseColA c).type = t) :=
  c3_shape_a exDocA rfl

/-- C4: on a Shape B document every keyed entry whose value carries a
columns list yields a record with that key as table name and the columns
normalized in order; a bare-string column becomes name, type TEXT and
empty description, and a column object with no type information defaults
to TEXT in either shape. -/
theorem c4_shape_b (d : ObjDoc) (hv : d.version ≠ some 2) (k : String)
    (e : MapEntry) (cols : List ColB)
    (hmem : (k, MapVal.objV e) ∈ d.entries) (hcols : e.columns = some cols) :
    (∃ ts ∈ parseDoc (YamlDoc.obj d),
        ts.table_name = k ∧ ts.columns = cols.map parseColB)
      ∧ (∀ s, parseColB (ColB.str s)
          = { name := s, type := "TEXT", description := "" })
      ∧ (∀ n dsc, (parseColB (ColB.obj n none none dsc)).type = "TEXT")
      ∧ (∀ c : ColA, c.data_type = none → c.dataType = none →
          (parseColA c).type = "TEXT") := by
  refine ⟨?_, fun s => rfl, fun n dsc => rfl, ?_⟩
  · refine ⟨entryToSchema k e, ?_, rfl, ?_⟩
    · simp only [parseDoc, hv, if_false]
      exact List.mem_filterMap.mpr
        ⟨(k, MapVal.objV e), hmem, by simp [hcols]⟩
    · simp [entryToSchema, hcols]
  · intro c h1 h2'
    simp [parseColA, jsOrStr, h1, h2']

/-- C4, witness at a concrete Shape B document. -/
theorem c4_shape_b_witness :
    (∃ ts ∈ parseDoc (YamlDoc.obj exDocB),
        ts.table_name = "core__lab"
          ∧ ts.columns = [ColB.str "loinc",
              ColB.obj "value" none (some "NUMERIC") (some "result value")].map parseColB)
      ∧ (∀ s, parseColB (ColB.str s)
          = { name := s, type := "TEXT", description := "" })
      ∧ (∀ n dsc, (parseColB (ColB.obj n none none dsc)).type = "TEXT")
      ∧ (∀ c : ColA, c.data_type = none → c.dataType = none →
          (parseColA c).type = "TEXT") :=
  c4_shape_b exDocB (by decide) "core__lab"
    { description := none
      columns := some [ColB.str "loinc",
        ColB.obj "value" none (some "NUMERIC") (some "result value")] }
    [ColB.str "loinc", ColB.obj "value" none (some "NUMERIC") (some "result value")]
    (by simp [exDocB]) rfl

/-- C5, counterexample: on a one-table catalog with a succeeding
embedding gateway, uploadToPinecone completes but its JS return value is
undefined (the body has no return statement), not the count 1 of records
written, so the operation does not return the count. -/
theorem c5_counterexample :
    (uploadToPinecone (V := Nat) (fun _ => Except.ok 0) [exPatient]).outcome
      ≠ Except.ok (some [exPatient].length) := by
  have h : (uploadToPinecone (V := Nat) (fun _ => Except.ok 0) [exPatient]).outcome
      = Except.ok none := rfl
  rw [h]
  simp

/-- C5, amended: when every embedding request succeeds, uploadToPinecone
writes exactly one record per catalog entry (its internal uploaded
counter, which it logs, ends at the catalog size, and the ids written
across all upserts number the catalog size), but the function itself
returns undefined rather than that count. -/
theorem c5_amended {V : Type} (embed : String → Except String V)
    (embVal : String → V) (hemb : ∀ t, embed t = Except.ok (embVal t))
    (schemas : List TableSchema) :
    (uploadToPinecone embed schemas).outcome = Except.ok none
      ∧ (uploadToPinecone embed schemas).uploaded = schemas.length
      ∧ (upsertedIds (uploadToPinecone embed schemas).events).length
          = schemas.length := by
  have h := uploadOver_ok embed embVal hemb (batchesOf schemas) 0
  unfold uploadToPinecone
  rw [h]
  refine ⟨rfl, ?_, ?_⟩
  · simp only [Nat.zero_add]
    rw [← List.length_flatten, batchesOf_flatten]
  · rw [upsertedIds_intersperse (fun b => b.map (vecOf embVal)) (batchesOf schemas)]
    have hmm : (batchesOf schemas).map
        (fun b => (b.map (vecOf embVal)).map VectorRecord.id)
          = (batchesOf schemas).map (List.map TableSchema.table_name) := by
      apply List.map_congr_left
      intro b _
      rw [List.map_map]
      rfl
    rw [hmm, ← List.map_flatten, batchesOf_flatten, List.length_map]

/-- C5, witness for the amended claim on a concrete two-table catalog. -/
theorem c5_amended_witness :
    (uploadToPinecone (V := Nat) (fun _ => Except.ok 7) [exPatient, exCondition]).outcome
        = Except.ok none
      ∧ (uploadToPinecone (V := Nat) (fun _ => Except.ok 7)
          [exPatient, exCondition]).uploaded = [exPatient, exCondition].length
      ∧ (upsertedIds (uploadToPinecone (V := Nat) (fun _ => Except.ok 7)
          [exPatient, exCondition]).events).length = [exPatient, exCondition].length :=
  c5_amended (fun _ => Except.ok 7) (fun _ => 7) (fun _ => rfl) [exPatient, exCondition]

/-- C6: if some table in the catalog has a failing embedding request,
the run aborts with the propagated error; the batches are split at the
first failing batch, every upsert in the trace is the complete record
list of a batch strictly before it, and neither the failing batch nor
any later batch is ever upserted (no table is silently skipped: the run
errors instead of completing). -/
theorem c6_abort {V : Type} (embed : String → Except String V)
    (schemas : List TableSchema)
    (h : ∃ s ∈ schemas, ∃ e, embed (createSchemaText s) = Except.error e) :
    (∃ e, (uploadToPinecone embed schemas).outcome = Except.error e)
      ∧ ∃ pre fb post,
          batchesOf schemas = pre ++ fb :: post
            ∧ (∀ b ∈ pre, ∃ vs, processBatch embed b = Except.ok vs)
            ∧ (∃ s ∈ fb, ∃ e, embed (createSchemaText s) = Except.error e)
            ∧ (uploadToPinecone embed schemas).events
                = (pre.map (fun b =>
                    [Event.upsert ((processBatch embed b).toOption.getD []),
                     Event.sleep 1000])).flatten
            ∧ (∀ vs, Event.upsert vs ∈ (uploadToPinecone embed schemas).events →
                ∃ b ∈ pre, vs = (processBatch embed b).toOption.getD []) := by
  classical
  have hfb : ∃ b ∈ batchesOf schemas,
      (decide (∃ e, processBatch embed b = Except.error e) : Bool) = false → False := by
    obtain ⟨s, hs, e, he⟩ := h
    rw [← batchesOf_flatten schemas] at hs
    obtain ⟨b, hb, hsb⟩ := List.mem_flatten.mp hs
    refine ⟨b, hb, ?_⟩
    intro hdec
    have : ∃ e, processBatch embed b = Except.error e :=
      (processBatch_error_iff embed b).mpr ⟨s, hsb, e, he⟩
    simp [this] at hdec
  obtain ⟨b0, hb0, hb0f⟩ := hfb
  have hsplit := first_false_split
    (fun b => ! decide (∃ e, processBatch embed b = Except.error e))
    (batchesOf schemas)
    ⟨b0, hb0, by
      rcases hb : (decide (∃ e, processBatch embed b0 = Except.error e) : Bool) with _ | _
      · exact absurd (hb0f hb) id
      · simp [hb]⟩
  obtain ⟨pre, fb, post, heq, hpre, hfbx⟩ := hsplit
  have hpre2 : ∀ b ∈ pre, ∃ vs, processBatch embed b = Except.ok vs := by
    intro b hb
    have := hpre b hb
    simp only [Bool.not_eq_true', decide_eq_false_iff_not] at this
    cases hx : processBatch embed b with
    | ok vs => exact ⟨vs, rfl⟩
    | error e => exact absurd ⟨e, hx⟩ this
  have hfberr : ∃ e, processBatch embed fb = Except.error e := by
    have hfbx2 : (! decide (∃ e, processBatch embed fb = Except.error e)) = false := hfbx
    cases hb2 : (decide (∃ e, processBatch embed fb = Except.error e) : Bool) with
    | true => exact of_decide_eq_true hb2
    | false => rw [hb2] at hfbx2; exact absurd hfbx2 (by simp)
  obtain ⟨e0, he0⟩ := hfberr
  have hfmem : ∃ s ∈ fb, ∃ e, embed (createSchemaText s) = Except.error e :=
    (processBatch_error_iff embed fb).mp ⟨e0, he0⟩
  have hmain := uploadOver_fail embed pre fb post 0 e0 hpre2 he0
  unfold uploadToPinecone
  rw [heq]
  refine ⟨⟨e0, hmain.1⟩, pre, fb, post, rfl, hpre2, hfmem, hmain.2, ?_⟩
  intro vs hvs
  rw [hmain.2] at hvs
  obtain ⟨evs, hevs, hmem⟩ := List.mem_flatten.mp hvs
  obtain ⟨b, hb, hbev⟩ := List.mem_map.mp hevs
  subst hbev
  rcases List.mem_cons.mp hmem with h1 | h1
  · refine ⟨b, hb, ?_⟩
    injection h1
  · simp at h1

/-- C6, witness: a gateway that always rejects, on a one-table catalog. -/
theorem c6_abort_witness :
    (∃ e, (uploadToPinecone (V := Nat) (fun _ => Except.error "throttled")
        [exCondition]).outcome = Except.error e)
      ∧ ∃ pre fb post,
          batchesOf [exCondition] = pre ++ fb :: post
            ∧ (∀ b ∈ pre, ∃ vs,
                processBatch (V := Nat) (fun _ => Except.error "throttled") b
                  = Except.ok vs)
            ∧ (∃ s ∈ fb, ∃ e,
                (fun _ => (Except.error "throttled" : Except String Nat))
                  (createSchemaText s) = Except.error e)
            ∧ (uploadToPinecone (V := Nat) (fun _ => Except.error "throttled")
                [exCondition]).events
                = (pre.map (fun b =>
                    [Event.upsert ((processBatch (V := Nat)
                        (fun _ => Except.error "throttled") b).toOption.getD []),
                     Event.sleep 1000])).flatten
            ∧ (∀ vs, Event.upsert vs ∈ (uploadToPinecone (V := Nat)
                  (fun _ => Except.error "throttled") [exCondition]).events →
                ∃ b ∈ pre, vs = (processBatch (V := Nat)
                  (fun _ => Except.error "throttled") b).toOption.getD []) :=
  c6_abort (fun _ => Except.error "throttled") [exCondition]
    ⟨exCondition, by simp, "throttled", rfl⟩

/-- C7: on a successful run the trace is exactly the upserts of the
consecutive catalog slices, one bulk upsert per batch, with a single
1000 ms sleep between consecutive upserts and none after the last;
every batch holds at most 100 tables, the batches partition the catalog
in order, and the ids written are exactly the table names of the
catalog, each exactly once and in catalog order. -/
theorem c7_batching {V : Type} (embed : String → Except String V)
    (embVal : String → V) (hemb : ∀ t, embed t = Except.ok (embVal t))
    (schemas : List TableSchema) :
    (uploadToPinecone embed schemas).events
        = List.intersperse (Event.sleep 1000)
            ((batchesOf schemas).map (fun b => Event.upsert (b.map (vecOf embVal))))
      ∧ (∀ b ∈ batchesOf schemas, b.length ≤ 100)
      ∧ (batchesOf schemas).flatten = schemas
      ∧ upsertedIds (uploadToPinecone embed schemas).events
          = schemas.map TableSchema.table_name
      ∧ (∀ s : TableSchema, ∀ b ∈ batchesOf schemas, ∀ r ∈ b.map (vecOf embVal),
          r.id = (vecOf embVal s).id → r.id = s.table_name) := by
  have h := uploadOver_ok embed embVal hemb (batchesOf schemas) 0
  have hev : (uploadToPinecone embed schemas).events
      = List.intersperse (Event.sleep 1000)
          ((batchesOf schemas).map (fun b => Event.upsert (b.map (vecOf embVal)))) := by
    unfold uploadToPinecone
    rw [h]
  refine ⟨hev, batchesOf_length_le schemas, batchesOf_flatten schemas, ?_, ?_⟩
  · rw [hev, upsertedIds_intersperse (fun b => b.map (vecOf embVal)) (batchesOf schemas)]
    have hmm : (batchesOf schemas).map
        (fun b => (b.map (vecOf embVal)).map VectorRecord.id)
          = (batchesOf schemas).map (List.map TableSchema.table_name) := by
      apply List.map_congr_left
      intro b _
      rw [List.map_map]
      rfl
    rw [hmm, ← List.map_flatten, batchesOf_flatten]
  · intro s b _ r _ hid
    rw [hid, vecOf_id]

/-- C7, witness on a concrete two-table catalog. -/
theorem c7_batching_witness :
    (uploadToPinecone (V := Nat) (fun _ => Except.ok 3) [exPatient, exCondition]).events
        = List.intersperse (Event.sleep 1000)
            ((batchesOf [exPatient, exCondition]).map
              (fun b => Event.upsert (b.map (vecOf (fun _ => 3)))))
      ∧ (∀ b ∈ batchesOf [exPatient, exCondition], b.length ≤ 100)
      ∧ (batchesOf [exPatient, exCondition]).flatten = [exPatient, exCondition]
      ∧ upsertedIds (uploadToPinecone (V := Nat) (fun _ => Except.ok 3)
            [exPatient, exCondition]).events
          = [exPatient, exCondition].map TableSchema.table_name
      ∧ (∀ s : TableSchema, ∀ b ∈ batchesOf [exPatient, exCondition],
          ∀ r ∈ b.map (vecOf (fun _ => (3 : Nat))),
          r.id = (vecOf (fun _ => (3 : Nat)) s).id → r.id = s.table_name) :=
  c7_batching (fun _ => Except.ok 3) (fun _ => 3) (fun _ => rfl) [exPatient, exCondition]

/-- C8, counterexample: after creating the missing index the code pauses
a fixed 10000 ms and returns; with a provisioning time of 10001 ms the
index is not yet queryable when initializeIndex returns, although the
create call happened in this very run, so the function does not wait for
the index to become queryable. -/
theorem c8_counterexample :
    ¬ indexQueryableAtReturn 10001 (initializeIndex [])
      ∧ SetupEvent.createIndex
          { name := PINECONE_INDEX_NAME, dimension := 1536, metric := "cosine",
            cloud := "aws", region := "us-east-1" } ∈ (initializeIndex []).events := by
  constructor
  · intro hq
    unfold indexQueryableAtReturn at hq
    have hw : waitedMs (initializeIndex []).events = 10000 := rfl
    rw [hw] at hq
    omega
  · decide

/-- C8, amended: initializeIndex creates the named index only when it is
absent, always with dimension 1536 and the cosine metric, and returns
the existing index untouched when present; after a creation it pauses a
fixed 10 seconds before returning, a bound independent of when the index
actually becomes queryable (it runs no readiness check). -/
theorem c8_amended (existing : List String) :
    (PINECONE_INDEX_NAME ∈ existing →
        (initializeIndex existing).events
            = [SetupEvent.listIndexes, SetupEvent.getIndex PINECONE_INDEX_NAME]
          ∧ (initializeIndex existing).indexes = existing
          ∧ ∀ args, SetupEvent.createIndex args ∉ (initializeIndex existing).events)
      ∧ (PINECONE_INDEX_NAME ∉ existing →
          (initializeIndex existing).events
              = [SetupEvent.listIndexes,
                 SetupEvent.createIndex
                   { name := PINECONE_INDEX_NAME, dimension := EMBEDDING_DIMENSIONS,
                     metric := "cosine", cloud := "aws", region := "us-east-1" },
                 SetupEvent.sleep 10000,
                 SetupEvent.getIndex PINECONE_INDEX_NAME]
            ∧ (initializeIndex existing).indexes = existing ++ [PINECONE_INDEX_NAME])
      ∧ (∀ args, SetupEvent.createIndex args ∈ (initializeIndex existing).events →
          args.dimension = 1536 ∧ args.metric = "cosine"
            ∧ PINECONE_INDEX_NAME ∉ existing)
      ∧ waitedMs (initializeIndex existing).events ≤ 10000
      ∧ (initializeIndex existing).handle = PINECONE_INDEX_NAME := by
  by_cases hc : PINECONE_INDEX_NAME ∈ existing
  · refine ⟨?_, ?_, ?_, ?_, ?_⟩
    · intro _
      refine ⟨by simp [initializeIndex, hc], by simp [initializeIndex, hc], ?_⟩
      intro args hargs
      simp [initializeIndex, hc] at hargs
    · intro hno
      exact absurd hc hno
    · intro args hargs
      simp [initializeIndex, hc] at hargs
    · simp [initializeIndex, hc, waitedMs]
    · simp [initializeIndex, hc]
  · refine ⟨?_, ?_, ?_, ?_, ?_⟩
    · intro hyes
      exact absurd hyes hc
    · intro _
      exact ⟨by simp [initializeIndex, hc], by simp [initializeIndex, hc]⟩
    · intro args hargs
      simp only [initializeIndex] at hargs
      rw [if_neg (by simpa using hc)] at hargs
      rcases List.mem_cons.mp hargs with h1 | h1
      · exact absurd h1 (by simp)
      · rcases List.mem_cons.mp h1 with h2 | h2
        · injection h2 with harg
          subst harg
          exact ⟨rfl, rfl, hc⟩
        · simp at h2
    · simp [initializeIndex, hc, waitedMs]
    · simp [initializeIndex, hc]

/-- C8, witness for the amended claim at an empty index list. -/
theorem c8_amended_witness :
    (PINECONE_INDEX_NAME ∈ ([] : List String) →
        (initializeIndex []).events
            = [SetupEvent.listIndexes, SetupEvent.getIndex PINECONE_INDEX_NAME]
          ∧ (initializeIndex []).indexes = []
          ∧ ∀ args, SetupEvent.createIndex args ∉ (initializeIndex []).events)
      ∧ (PINECONE_INDEX_NAME ∉ ([] : List String) →
          (initializeIndex []).events
              = [SetupEvent.listIndexes,
                 SetupEvent.createIndex
                   { name := PINECONE_INDEX_NAME, dimension := EMBEDDING_DIMENSIONS,
                     metric := "cosine", cloud := "aws", region := "us-east-1" },
                 SetupEvent.sleep 10000,
                 SetupEvent.getIndex PINECONE_INDEX_NAME]
            ∧ (initializeIndex []).indexes = [] ++ [PINECONE_INDEX_NAME])
      ∧ (∀ args, SetupEvent.createIndex args ∈ (initializeIndex []).events →
          args.dimension = 1536 ∧ args.metric = "cosine"
            ∧ PINECONE_INDEX_NAME ∉ ([] : List String))
      ∧ waitedMs (initializeIndex []).events ≤ 10000
      ∧ (initializeIndex []).handle = PINECONE_INDEX_NAME :=
  c8_amended []

/-- C9: a source file whose load throws yields zero records, and the
catalog over the remaining files is exactly the catalog that would have
been produced without that file (normalization continues); a document
that is not an object, or an object matching neither shape (no version-2
marker and no keyed value carrying a columns list), yields zero records
without raising. -/
theorem c9_partial_failure (docs : String → Option DocBlock)
    (pre post : List (Except String YamlDoc)) (e : String) :
    parseYamlFile (Except.error e) = []
      ∧ parseTuvaSchema
          { modelsDirExists := true, files := pre ++ Except.error e :: post,
            documentation := docs }
          = parseTuvaSchema
              { modelsDirExists := true, files := pre ++ post, documentation := docs }
      ∧ (∀ d : ObjDoc, d.version ≠ some 2 →
          (∀ kv ∈ d.entries,
            kv.2 = MapVal.nonObj ∨ ∃ me, kv.2 = MapVal.objV me ∧ me.columns = none) →
          parseDoc (YamlDoc.obj d) = [])
      ∧ parseYamlFile (Except.ok YamlDoc.nonObj) = [] := by
  refine ⟨rfl, ?_, ?_, rfl⟩
  · simp [parseTuvaSchema, parseYamlFile, List.map_append, List.flatten_append]
  · intro d hv hcols
    simp only [parseDoc, hv, if_neg, if_false]
    rw [List.filterMap_eq_nil_iff]
    intro kv hkv
    rcases hcols kv hkv with h1 | ⟨me, h1, h2⟩
    · rw [h1]
    · rw [h1]
      simp [h2]

/-- C9, witness at a concrete failing file between two good files. -/
theorem c9_partial_failure_witness :
    parseYamlFile (Except.error "bad indent") = []
      ∧ parseTuvaSchema
          { modelsDirExists := true,
            files := [exFileT1] ++ Except.error "bad indent" :: [exFileT2],
            documentation := fun _ => none }
          = parseTuvaSchema
              { modelsDirExists := true, files := [exFileT1] ++ [exFileT2],
                documentation := fun _ => none }
      ∧ (∀ d : ObjDoc, d.version ≠ some 2 →
          (∀ kv ∈ d.entries,
            kv.2 = MapVal.nonObj ∨ ∃ me, kv.2 = MapVal.objV me ∧ me.columns = none) →
          parseDoc (YamlDoc.obj d) = [])
      ∧ parseYamlFile (Except.ok YamlDoc.nonObj) = [] :=
  c9_partial_failure (fun _ => none) [exFileT1] [exFileT2] "bad indent"

/-- C10: when the models directory is missing, parseTuvaSchema resolves
with no value at all, neither an empty catalog nor an error, and the
caller setupTuva, which reads schemas.length without checking, throws a
TypeError at that step. -/
theorem c10_missing_models_dir (repo : RepoState)
    (h : repo.modelsDirExists = false) :
    parseTuvaSchema repo = none
      ∧ (∀ l : List TableSchema, parseTuvaSchema repo ≠ some l)
      ∧ (∃ msg, setupTuvaCount repo = Except.error msg)
      ∧ (∀ k : Nat, setupTuvaCount repo ≠ Except.ok k) := by
  have hp : parseTuvaSchema repo = none := by
    simp [parseTuvaSchema, h]
  refine ⟨hp, ?_, ?_, ?_⟩
  · intro l hl
    rw [hp] at hl
    exact absurd hl (by simp)
  · refine ⟨"TypeError: Cannot read properties of undefined (reading length)", ?_⟩
    simp [setupTuvaCount, hp, jsLength]
  · intro k hk
    simp [setupTuvaCount, hp, jsLength] at hk

/-- C10, witness at a concrete repository missing the models directory. -/
theorem c10_missing_models_dir_witness :
    parseTuvaSchema
        { modelsDirExists := false, files := [exFileT1], documentation := fun _ => none }
        = none
      ∧ (∀ l : List TableSchema,
          parseTuvaSchema
            { modelsDirExists := false, files := [exFileT1],
              documentation := fun _ => none } ≠ some l)
      ∧ (∃ msg, setupTuvaCount
          { modelsDirExists := false, files := [exFileT1],
            documentation := fun _ => none } = Except.error msg)
      ∧ (∀ k : Nat, setupTuvaCount
          { modelsDirExists := false, files := [exFileT1],
            documentation := fun _ => none } ≠ Except.ok k) :=
  c10_missing_models_dir
    { modelsDirExists := false, files := [exFileT1], documentation := fun _ => none } rfl
